import Mathlib

/-!
Verification of the Pushbullet–Linkwarden bridge (src/main.py) against its
natural-language specification.  The Python source is shallowly embedded:
dict-shaped configuration and push payloads become structures of `Option`
fields, Python truthiness is made explicit, network effects are parameters
of an `Env` record, and the in-memory/persisted watermark dictionary
`processed_pushes` is an association list of device identifier to timestamp.
Timestamps (Python floats, epoch seconds) are embedded as `Rat`: the code
only compares them and takes maxima/minima, which is order-faithful.
-/

/-- Python truthiness of an optional string (`None` and the empty string are
falsy), as used by `if not device_iden:` and `if not url:` in src/main.py. -/
def truthyStr : Option String → Bool
  | none => false
  | some s => !(s == "")

/-- Python `a or b` on optional strings, as in
`device_iden = target_device_iden or source_device_iden` (line 367). -/
def pyOrOpt (a b : Option String) : Option String :=
  if truthyStr a then a else b

/-- Python `a or b` where `a` is an optional string and `b` a string, as in
`title = self._extract_page_title(resolved_url) or title` (line 398):
`None` and the empty string fall through to `b`. -/
def pyOrStr (a : Option String) (b : String) : String :=
  match a with
  | none => b
  | some s => if s == "" then b else s

/-- Python `s.startswith(p)` on the underlying character lists. -/
def charsStartWith : List Char → List Char → Bool
  | _, [] => true
  | [], _ :: _ => false
  | c :: cs, d :: ds => c == d && charsStartWith cs ds

/-- `url.startswith('https://search.app/')` from `_resolve_url` (line 479). -/
def startswith (s pat : String) : Bool :=
  charsStartWith s.data pat.data

/-- One entry of the `channels` list of config.yaml, as read by src/main.py
(`channel.get('name')`, `channel.get('device_iden')`,
`channel.get('collection')`, `channel.get('collection_id')`). -/
structure Channel where
  name : Option String
  device_iden : Option String
  collection : Option String
  collection_id : Option Int
deriving DecidableEq

/-- A Pushbullet push payload, with the fields read by `process_push`
(lines 353-389): every field may be absent, mirroring `push.get(...)`. -/
structure Push where
  ty : Option String
  iden : Option String
  modified : Option Rat
  target_device_iden : Option String
  source_device_iden : Option String
  url : Option String
  title : Option String
  body : Option String
deriving DecidableEq

/-- `push.get('modified', 0)` (line 355). -/
def push_modified (p : Push) : Rat :=
  p.modified.getD 0

/-- The watermark dictionary `self.processed_pushes : device_iden -> last
modified timestamp` (line 48), embedded as an association list. -/
abbrev WM := List (String × Rat)

/-- Dictionary lookup `self.processed_pushes[device_iden]`. -/
def wmLookup : WM → String → Option Rat
  | [], _ => none
  | (k, v) :: rest, d => if k == d then some v else wmLookup rest d

/-- Dictionary assignment `self.processed_pushes[device_iden] = m`
(replaces an existing binding, appends otherwise). -/
def wmInsert : WM → String → Rat → WM
  | [], d, v => [(d, v)]
  | (k, w) :: rest, d, v =>
    if k == d then (d, v) :: rest else (k, w) :: wmInsert rest d v

/-- An HTTP response as observed by `_resolve_url`: the status code and the
optional `location` header. -/
structure HttpResponse where
  status : Nat
  location : Option String
deriving DecidableEq

/-- A redirect-probing request issued by `_resolve_url` (instrumentation of
the `requests.head` / `requests.get` calls at lines 489 and 499). -/
inductive ProbeReq where
  | headProbe (url : String)
  | getProbe (url : String)
deriving DecidableEq

/-- The external world seen by the bridge: the Pushbullet push-fetch endpoint,
the redirect-probe endpoints (`none` models a raised request exception), the
title extractor's outcome, the Linkwarden sink outcome, the `dry_run` setting,
and the current wall clock `time.time()`. -/
structure Env where
  fetch : Rat → List Push
  headReq : String → Option HttpResponse
  getReq : String → Option HttpResponse
  pageTitle : String → Option String
  sinkOk : Bool
  dryRun : Bool
  now : Rat

/-- The redirect-status branch of `_resolve_url` (lines 506-514): on a
301/302/303/307/308 status with a truthy `location` header return that header,
otherwise the original URL. -/
def redirect_result (url : String) (r : HttpResponse) : String :=
  if r.status = 301 ∨ r.status = 302 ∨ r.status = 303 ∨ r.status = 307 ∨ r.status = 308 then
    match r.location with
    | some loc => if loc == "" then url else loc
    | none => url
  else url

/-- `_resolve_url` (lines 475-518).  Returns the resolved URL together with
the list of probing requests issued: a non-search.app URL is returned as-is
with no request; otherwise a HEAD probe is issued, a GET probe is issued when
HEAD returns 403, and a raised exception (`none`) returns the original URL. -/
def resolve_url (env : Env) (url : String) : String × List ProbeReq :=
  if startswith url ("https://search.app/") then
    match env.headReq url with
    | none => (url, [ProbeReq.headProbe url])
    | some r0 =>
      if r0.status = 403 then
        match env.getReq url with
        | none => (url, [ProbeReq.headProbe url, ProbeReq.getProbe url])
        | some r => (redirect_result url r, [ProbeReq.headProbe url, ProbeReq.getProbe url])
      else (redirect_result url r0, [ProbeReq.headProbe url])
  else (url, [])

/-- The linear scan of `get_collection_for_device` (lines 331-334): first
channel whose `device_iden` equals the query wins, its (possibly absent)
`collection_id` is returned. -/
def findCollection : List Channel → String → Option Int
  | [], _ => none
  | c :: rest, d =>
    if c.device_iden == some d then c.collection_id else findCollection rest d

/-- `get_collection_for_device` (lines 326-334): falsy device identifiers map
to `None`, otherwise first-match scan over the configured channels. -/
def get_collection_for_device (channels : List Channel) (device_iden : Option String) : Option Int :=
  match device_iden with
  | none => none
  | some d => if d == "" then none else findCollection channels d

/-- `_get_device_name` (lines 436-441): first-match scan, falling back to the
identifier itself. -/
def get_device_name (channels : List Channel) (device_iden : String) : String :=
  match channels with
  | [] => device_iden
  | c :: rest =>
    if c.device_iden == some device_iden then c.name.getD device_iden
    else get_device_name rest device_iden

/-- Outcome of one `save_to_linkwarden` call: dry-run skip, successful POST,
or failed POST. -/
inductive SinkResult where
  | saved
  | dryRun
  | failed
deriving DecidableEq

/-- One invocation of the Bookmark Sink (`save_to_linkwarden`, lines 407-434),
with the payload of `link_data` (line 422) and the outcome. -/
structure SinkCall where
  url : String
  name : String
  description : String
  collection_id : Int
  result : SinkResult
deriving DecidableEq

/-- `save_to_linkwarden` (lines 407-434): `name` is `title or url`; in dry-run
mode it returns before the POST; otherwise the POST succeeds or fails
according to the environment, and in both cases the function just logs. -/
def save_to_linkwarden (env : Env) (url title description : String) (collection_id : Int) : SinkCall :=
  let nm := if title == "" then url else title
  if env.dryRun then SinkCall.mk url nm description collection_id SinkResult.dryRun
  else if env.sinkOk then SinkCall.mk url nm description collection_id SinkResult.saved
  else SinkCall.mk url nm description collection_id SinkResult.failed

/-- The idempotence check of `process_push` (lines 379-384):
`device_iden in self.processed_pushes and push_modified <= last_processed`. -/
def already_processed (wm : WM) (d : String) (m : Rat) : Bool :=
  match wmLookup wm d with
  | some last => decide (m ≤ last)
  | none => false

/-- How `process_push` disposed of a push: one constructor per early `return`,
plus `processed` carrying the Bookmark Sink invocation. -/
inductive PushResult where
  | skippedNonLink
  | skippedNoDevice
  | skippedNoCollection
  | skippedAlreadyProcessed
  | skippedNoUrl
  | processed (call : SinkCall)
deriving DecidableEq

/-- `process_push` (lines 351-405), returning the updated watermark dictionary
and the disposition.  The order of checks follows the source: link type,
device identifier (target preferred, source fallback, falsy dropped),
configured collection (Python truthiness: absent or 0 drops), idempotence
check, URL presence; then URL resolution, title extraction with fallback to
the push's own title, the sink call, and only then the watermark update and
persistence — the update is unconditional on the sink outcome. -/
def process_push (channels : List Channel) (env : Env) (wm : WM) (p : Push) : WM × PushResult :=
  if p.ty == some ("link") then
    match pyOrOpt p.target_device_iden p.source_device_iden with
    | none => (wm, PushResult.skippedNoDevice)
    | some d =>
      if d == "" then (wm, PushResult.skippedNoDevice)
      else
        match get_collection_for_device channels (some d) with
        | none => (wm, PushResult.skippedNoCollection)
        | some cid =>
          if cid = 0 then (wm, PushResult.skippedNoCollection)
          else if already_processed wm d (push_modified p) then
            (wm, PushResult.skippedAlreadyProcessed)
          else
            match p.url with
            | none => (wm, PushResult.skippedNoUrl)
            | some u =>
              if u == "" then (wm, PushResult.skippedNoUrl)
              else
                let resolved_url := (resolve_url env u).1
                let title := pyOrStr (env.pageTitle resolved_url) (p.title.getD (""))
                (wmInsert wm d (push_modified p),
                 PushResult.processed
                   (save_to_linkwarden env resolved_url title (p.body.getD ("")) cid))
  else (wm, PushResult.skippedNonLink)

/-- Whether the disposition reached `save_to_linkwarden`. -/
def isDelivered : PushResult → Bool
  | PushResult.processed _ => true
  | _ => false

/-- Extract the sink invocations from a run's dispositions. -/
def delivered_calls : List PushResult → List SinkCall
  | [] => []
  | r :: rest =>
    (match r with
     | PushResult.processed call => [call]
     | _ => []) ++ delivered_calls rest

/-- Sequential processing of a list of pushes via `process_push`, threading
the watermark state (the `for push in pushes: self.process_push(push)` loops
at lines 572-573 and 587-588). -/
def runPushes (channels : List Channel) (env : Env) : WM → List Push → WM × List PushResult
  | wm, [] => (wm, [])
  | wm, p :: ps =>
    let r := process_push channels env wm p
    let rest := runPushes channels env r.1 ps
    (rest.1, r.2 :: rest.2)

/-- The baseline filter of `process_initial_pushes` (lines 537-539): link
pushes owned (as target or as source) by the device. -/
def baseline_link_pushes (env : Env) (d : String) : List Push :=
  (env.fetch 0).filter (fun p =>
    decide (p.ty = some ("link") ∧
      (p.target_device_iden = some d ∨ p.source_device_iden = some d)))

/-- `max(p.get('modified', 0) for p in pushes)` (line 543), over a nonempty
list; 0 on the empty list (unreached by the caller). -/
def maxModified : List Push → Rat
  | [] => 0
  | [p] => push_modified p
  | p :: q :: rest => max (push_modified p) (maxModified (q :: rest))

/-- The baseline written for a never-seen device (lines 541-551): the most
recent owned link push's `modified`, or the current wall-clock time when no
such push exists. -/
def baseline_value (env : Env) (d : String) : Rat :=
  match baseline_link_pushes env d with
  | [] => env.now
  | ps => maxModified ps

/-- One iteration of the `for channel in self.config['channels']` loop of
`process_initial_pushes` (lines 524-573): skip falsy device identifiers;
baseline never-seen devices without processing; for known devices fetch
pushes modified after the stored watermark, filter to the device (target or
source), and process each in the fetched order. -/
def process_channel_initial (env : Env) (channels : List Channel)
    (acc : WM × List PushResult) (c : Channel) : WM × List PushResult :=
  match c.device_iden with
  | none => acc
  | some d =>
    if d == "" then acc
    else
      match wmLookup acc.1 d with
      | none => (wmInsert acc.1 d (baseline_value env d), acc.2)
      | some last_modified =>
        let pushes := env.fetch last_modified
        let device_pushes := pushes.filter (fun p =>
          decide (p.target_device_iden = some d ∨ p.source_device_iden = some d))
        let r := runPushes channels env acc.1 device_pushes
        (r.1, acc.2 ++ r.2)

/-- `process_initial_pushes` (lines 520-573). -/
def process_initial_pushes (channels : List Channel) (env : Env) (wm : WM) : WM × List PushResult :=
  channels.foldl (process_channel_initial env channels) (wm, [])

/-- An inbound WebSocket frame after JSON decoding, with the two fields the
handler reads. -/
structure WsMessage where
  ty : Option String
  subtype : Option String
deriving DecidableEq

/-- `on_websocket_message` (lines 575-593): a frame with type `tickle` and
subtype `push` triggers `fetch_recent_pushes(modified_after=0)` and processes
every returned push in order; any other frame does nothing. -/
def on_websocket_message (channels : List Channel) (env : Env) (wm : WM) (msg : WsMessage) : WM × List PushResult :=
  if msg.ty = some ("tickle") ∧ msg.subtype = some ("push") then
    runPushes channels env wm (env.fetch 0)
  else (wm, [])

/-- The fields of `AppSettings` (lines 29-36). -/
structure AppSettings where
  dry_run : Bool
  log_level : String
  reconnect_max_delay : Int
  reconnect_initial_delay : Int
  request_timeout : Int
deriving DecidableEq

/-- `on_websocket_open` (lines 606-610): a successful connection resets
`self.reconnect_delay` to the configured initial delay. -/
def on_websocket_open_delay (settings : AppSettings) : Int :=
  settings.reconnect_initial_delay

/-- The exponential-backoff update of `run` (lines 663-666 and 680-683):
after sleeping, the delay becomes `min(delay * 2, reconnect_max_delay)`. -/
def next_reconnect_delay (settings : AppSettings) (delay : Int) : Int :=
  min (delay * 2) settings.reconnect_max_delay

/-- The delay `run` sleeps after the (n+1)-th consecutive failed/closed
connection cycle following a successful connection: the reset value for the
first sleep (the code sleeps before doubling), then one doubling-with-cap per
further failure. -/
def delay_slept_after_failures (settings : AppSettings) : Nat → Int
  | 0 => on_websocket_open_delay settings
  | n + 1 => next_reconnect_delay settings (delay_slept_after_failures settings n)

/-- The filter of the spec's incremental catch-up branch for a channel whose
stored watermark is w: events owned by the device (as target or source) with
`modified_at` strictly greater than w. -/
def newer_owned_push (d : String) (w : Rat) (p : Push) : Bool :=
  decide ((p.target_device_iden = some d ∨ p.source_device_iden = some d) ∧
    w < push_modified p)

/-- Insertion step of an insertion sort by `modified` ascending. -/
def insertAsc (p : Push) : List Push → List Push
  | [] => [p]
  | q :: qs =>
    if push_modified p ≤ push_modified q then p :: q :: qs else q :: insertAsc p qs

/-- Insertion sort by `modified` ascending, used to express the spec's
"in ascending time order". -/
def sortByModified : List Push → List Push
  | [] => []
  | p :: ps => insertAsc p (sortByModified ps)

/-- Modelled from the spec: the startup catch-up's incremental branch, per
its words — "For channels with an existing watermark, fetch and process all
events with `modified_at` strictly greater than the watermark, in ascending
time order, applying the same per-event contract".  Channels without a
device identifier or without a stored watermark are outside this branch. -/
def catchup_incremental_spec (channels : List Channel) (env : Env) (wm : WM) : WM × List PushResult :=
  channels.foldl (fun acc c =>
    match c.device_iden with
    | none => acc
    | some d =>
      if d == "" then acc
      else
        match wmLookup acc.1 d with
        | none => acc
        | some w =>
          let evs := sortByModified ((env.fetch w).filter (newer_owned_push d w))
          let r := runPushes channels env acc.1 evs
          (r.1, acc.2 ++ r.2)) (wm, [])

/-- The watermark-mutating operations of a run, for stating the global
monotonicity invariant: one `process_push` call, one startup catch-up pass,
or one WebSocket frame delivery. -/
inductive BridgeOp where
  | handlePush (channels : List Channel) (env : Env) (p : Push)
  | initialPushes (channels : List Channel) (env : Env)
  | wsMessage (channels : List Channel) (env : Env) (msg : WsMessage)

/-- The watermark state after one operation. -/
def applyOp (wm : WM) : BridgeOp → WM
  | BridgeOp.handlePush channels env p => (process_push channels env wm p).1
  | BridgeOp.initialPushes channels env => (process_initial_pushes channels env wm).1
  | BridgeOp.wsMessage channels env msg => (on_websocket_message channels env wm msg).1

/-- Fixture: a configured channel routing device d to collection 1. -/
def chanD : Channel :=
  Channel.mk (some ("dev")) (some ("d")) (some ("colA")) (some 1)

/-- Fixture: a later duplicate channel for the same device d, collection 2. -/
def chanDdup : Channel :=
  Channel.mk (some ("dev2")) (some ("d")) (some ("colB")) (some 2)

/-- Fixture: a link push for device d with modified = 11. -/
def pushA : Push :=
  Push.mk (some ("link")) (some ("p1")) (some 11) (some ("d")) none
    (some ("u1")) (some ("")) (some (""))

/-- Fixture: a link push for device d with modified = 12. -/
def pushB : Push :=
  Push.mk (some ("link")) (some ("p2")) (some 12) (some ("d")) none
    (some ("u2")) (some ("")) (some (""))

/-- Fixture: an environment whose push fetch always returns the two fixture
pushes newest-first (as the Pushbullet API does), whose probe and title
requests all fail, and whose sink accepts writes. -/
def envDesc : Env :=
  Env.mk (fun _ => [pushB, pushA]) (fun _ => none) (fun _ => none)
    (fun _ => none) true false 0

/-- Fixture: an environment with no available pushes whose sink write fails. -/
def envSinkFail : Env :=
  Env.mk (fun _ => []) (fun _ => none) (fun _ => none) (fun _ => none)
    false false 0

/-- Fixture: the relevant wire frame, a push tickle. -/
def tickleMsg : WsMessage :=
  WsMessage.mk (some ("tickle")) (some ("push"))

/-- Fixture: like `envDesc` but with the two pushes arriving oldest-first. -/
def envAsc : Env :=
  Env.mk (fun _ => [pushA, pushB]) (fun _ => none) (fun _ => none)
    (fun _ => none) true false 0

/-- Fixture: an environment with no available pushes, a working sink, and
wall clock 1000. -/
def envAt1000 : Env :=
  Env.mk (fun _ => []) (fun _ => none) (fun _ => none) (fun _ => none)
    true false 1000

/-- Fixture: a link push for device d one second before wall clock 1000. -/
def pushE1 : Push :=
  Push.mk (some ("link")) (some ("e1")) (some 999) (some ("d")) none
    (some ("v1")) (some ("")) (some (""))

/-- Fixture: a link push for device d 100 seconds after wall clock 1000. -/
def pushE2 : Push :=
  Push.mk (some ("link")) (some ("e2")) (some 1100) (some ("d")) none
    (some ("v2")) (some ("")) (some (""))

/-- Fixture: a link push for device d with modified = 0. -/
def pushOld : Push :=
  Push.mk (some ("link")) (some ("p0")) (some 0) (some ("d")) none
    (some ("u0")) (some ("")) (some (""))

/-- Fixture: an environment whose HEAD probe of the short link answers 302
with a Location header. -/
def envRedirect : Env :=
  Env.mk (fun _ => [])
    (fun u => if u == ("https://search.app/abc") then
       some (HttpResponse.mk 302 (some ("https://example.com/page"))) else none)
    (fun _ => none) (fun _ => none) true false 0

/-! ## Basic lemmas about the watermark dictionary and Python helpers -/

theorem wmLookup_wmInsert_self (wm : WM) (d : String) (v : Rat) :
    wmLookup (wmInsert wm d v) d = some v := by
  induction wm with
  | nil => simp [wmInsert, wmLookup]
  | cons kv rest ih =>
    obtain ⟨k, w⟩ := kv
    by_cases h : k = d
    · subst h; simp [wmInsert, wmLookup]
    · simp [wmInsert, wmLookup, h, ih]

theorem wmLookup_wmInsert_ne (wm : WM) (d d' : String) (v : Rat) (h : d ≠ d') :
    wmLookup (wmInsert wm d v) d' = wmLookup wm d' := by
  induction wm with
  | nil => simp [wmInsert, wmLookup, h]
  | cons kv rest ih =>
    obtain ⟨k, w⟩ := kv
    by_cases hk : k = d
    · subst hk; simp [wmInsert, wmLookup, h]
    · simp [wmInsert, wmLookup, hk, ih]

theorem pyOrOpt_eq_some (a b : Option String) (d : String)
    (h : pyOrOpt a b = some d) : a = some d ∨ b = some d := by
  unfold pyOrOpt at h
  split at h
  · exact Or.inl h
  · exact Or.inr h

theorem already_processed_eq_true (wm : WM) (d : String) (m last : Rat)
    (hl : wmLookup wm d = some last) (hle : m ≤ last) :
    already_processed wm d m = true := by
  unfold already_processed
  rw [hl]
  simpa using hle

theorem already_processed_eq_false_lt (wm : WM) (d : String) (m last : Rat)
    (hl : wmLookup wm d = some last)
    (h : already_processed wm d m = false) : last < m := by
  unfold already_processed at h
  rw [hl] at h
  simpa using h

theorem already_processed_of_none (wm : WM) (d : String) (m : Rat)
    (hl : wmLookup wm d = none) : already_processed wm d m = false := by
  unfold already_processed
  rw [hl]

/-! ## Branch lemmas for `process_push` -/

theorem process_push_nonlink (channels : List Channel) (env : Env) (wm : WM) (p : Push)
    (h : p.ty ≠ some ("link")) :
    process_push channels env wm p = (wm, PushResult.skippedNonLink) := by
  simp [process_push, h]

theorem process_push_delivers (channels : List Channel) (env : Env) (wm : WM) (p : Push)
    (d : String) (cid : Int) (u : String)
    (hty : p.ty = some ("link"))
    (hdev : pyOrOpt p.target_device_iden p.source_device_iden = some d)
    (hde : d ≠ "")
    (hcol : get_collection_for_device channels (some d) = some cid)
    (hcid : cid ≠ 0)
    (hstale : already_processed wm d (push_modified p) = false)
    (hurl : p.url = some u) (hu : u ≠ "") :
    process_push channels env wm p =
      (wmInsert wm d (push_modified p),
       PushResult.processed
        (save_to_linkwarden env (resolve_url env u).1
          (pyOrStr (env.pageTitle (resolve_url env u).1) (p.title.getD ("")))
          (p.body.getD ("")) cid)) := by
  simp [process_push, hty, hdev, hde, hcol, hcid, hstale, hurl, hu]

theorem process_push_stale (channels : List Channel) (env : Env) (wm : WM) (p : Push)
    (d : String) (last : Rat)
    (hdev : pyOrOpt p.target_device_iden p.source_device_iden = some d)
    (hlast : wmLookup wm d = some last)
    (hm : push_modified p ≤ last) :
    (process_push channels env wm p).1 = wm ∧
      isDelivered (process_push channels env wm p).2 = false := by
  by_cases hty : p.ty = some ("link")
  · by_cases hd : d = ""
    · subst hd
      simp [process_push, hty, hdev, isDelivered]
    · have hap : already_processed wm d (push_modified p) = true :=
        already_processed_eq_true wm d (push_modified p) last hlast hm
      rcases hcol : get_collection_for_device channels (some d) with _ | cid
      · simp [process_push, hty, hdev, hd, hcol, isDelivered]
      · by_cases hcz : cid = 0
        · subst hcz
          simp [process_push, hty, hdev, hd, hcol, isDelivered]
        · simp [process_push, hty, hdev, hd, hcol, hcz, hap, isDelivered]
  · simp [process_push_nonlink channels env wm p hty, isDelivered]

theorem process_push_wm_cases (channels : List Channel) (env : Env) (wm : WM) (p : Push) :
    (process_push channels env wm p).1 = wm ∨
    ∃ d0, (process_push channels env wm p).1 = wmInsert wm d0 (push_modified p) ∧
      already_processed wm d0 (push_modified p) = false := by
  by_cases hty : p.ty = some ("link")
  · rcases hdev : pyOrOpt p.target_device_iden p.source_device_iden with _ | d
    · simp [process_push, hty, hdev]
    · by_cases hd : d = ""
      · subst hd; simp [process_push, hty, hdev]
      · rcases hcol : get_collection_for_device channels (some d) with _ | cid
        · simp [process_push, hty, hdev, hd, hcol]
        · by_cases hcz : cid = 0
          · subst hcz; simp [process_push, hty, hdev, hd, hcol]
          · cases hap : already_processed wm d (push_modified p) with
            | true => simp [process_push, hty, hdev, hd, hcol, hcz, hap]
            | false =>
              rcases hurl : p.url with _ | u
              · simp [process_push, hty, hdev, hd, hcol, hcz, hap, hurl]
              · by_cases hu : u = ""
                · subst hu
                  simp [process_push, hty, hdev, hd, hcol, hcz, hap, hurl]
                · refine Or.inr ⟨d, ?_, hap⟩
                  simp [process_push, hty, hdev, hd, hcol, hcz, hap, hurl, hu]
  · simp [process_push, hty]

theorem process_push_mono (channels : List Channel) (env : Env) (wm : WM) (p : Push)
    (d : String) (v : Rat) (h : wmLookup wm d = some v) :
    ∃ v', wmLookup (process_push channels env wm p).1 d = some v' ∧ v ≤ v' := by
  rcases process_push_wm_cases channels env wm p with hcase | ⟨d0, heq, hap⟩
  · exact ⟨v, by rw [hcase]; exact h, le_refl v⟩
  · by_cases hd : d0 = d
    · subst hd
      have hlt : v < push_modified p :=
        already_processed_eq_false_lt wm d0 (push_modified p) v h hap
      exact ⟨push_modified p,
        by rw [heq]; exact wmLookup_wmInsert_self wm d0 (push_modified p),
        le_of_lt hlt⟩
    · exact ⟨v,
        by rw [heq, wmLookup_wmInsert_ne wm d0 d (push_modified p) hd]; exact h,
        le_refl v⟩

/-! ## Lemmas about sequential processing -/

theorem runPushes_cons (channels : List Channel) (env : Env) (wm : WM) (p : Push) (ps : List Push) :
    runPushes channels env wm (p :: ps) =
      ((runPushes channels env (process_push channels env wm p).1 ps).1,
       (process_push channels env wm p).2 ::
         (runPushes channels env (process_push channels env wm p).1 ps).2) := rfl

theorem delivered_calls_cons (x : PushResult) (rs : List PushResult) :
    delivered_calls (x :: rs) =
      (match x with
       | PushResult.processed call => [call]
       | _ => []) ++ delivered_calls rs := rfl

theorem delivered_calls_cons_skip (x : PushResult) (rs : List PushResult)
    (h : isDelivered x = false) : delivered_calls (x :: rs) = delivered_calls rs := by
  cases x
  all_goals try rfl
  simp [isDelivered] at h

theorem runPushes_mono (channels : List Channel) (env : Env) :
    ∀ (L : List Push) (wm : WM) (d : String) (v : Rat),
      wmLookup wm d = some v →
      ∃ v', wmLookup (runPushes channels env wm L).1 d = some v' ∧ v ≤ v' := by
  intro L
  induction L with
  | nil => intro wm d v h; exact ⟨v, h, le_refl v⟩
  | cons p ps ih =>
    intro wm d v h
    obtain ⟨v1, h1, hv1⟩ := process_push_mono channels env wm p d v h
    obtain ⟨v2, h2, hv2⟩ := ih (process_push channels env wm p).1 d v1 h1
    refine ⟨v2, ?_, le_trans hv1 hv2⟩
    rw [runPushes_cons]
    exact h2

theorem process_channel_initial_mono (env : Env) (channels : List Channel)
    (acc : WM × List PushResult) (c : Channel) (d : String) (v : Rat)
    (h : wmLookup acc.1 d = some v) :
    ∃ v', wmLookup (process_channel_initial env channels acc c).1 d = some v' ∧ v ≤ v' := by
  rcases hdi : c.device_iden with _ | d0
  · exact ⟨v, by simp [process_channel_initial, hdi, h], le_refl v⟩
  · by_cases hd0 : d0 = ""
    · exact ⟨v, by simp [process_channel_initial, hdi, hd0, h], le_refl v⟩
    · rcases hlk : wmLookup acc.1 d0 with _ | w
      · have hne : d0 ≠ d := by
          intro he
          subst he
          rw [h] at hlk
          cases hlk
        refine ⟨v, ?_, le_refl v⟩
        have hred : (process_channel_initial env channels acc c).1 =
            wmInsert acc.1 d0 (baseline_value env d0) := by
          simp [process_channel_initial, hdi, hd0, hlk]
        rw [hred, wmLookup_wmInsert_ne acc.1 d0 d (baseline_value env d0) hne]
        exact h
      · obtain ⟨v', h', hv'⟩ := runPushes_mono channels env
          ((env.fetch w).filter (fun p =>
            decide (p.target_device_iden = some d0 ∨ p.source_device_iden = some d0)))
          acc.1 d v h
        refine ⟨v', ?_, hv'⟩
        have hred : (process_channel_initial env channels acc c).1 =
            (runPushes channels env acc.1
              ((env.fetch w).filter (fun p =>
                decide (p.target_device_iden = some d0 ∨ p.source_device_iden = some d0)))).1 := by
          simp [process_channel_initial, hdi, hd0, hlk]
        rw [hred]
        exact h'

theorem foldl_initial_mono (env : Env) (channels : List Channel) :
    ∀ (cs : List Channel) (acc : WM × List PushResult) (d : String) (v : Rat),
      wmLookup acc.1 d = some v →
      ∃ v', wmLookup (cs.foldl (process_channel_initial env channels) acc).1 d = some v' ∧
        v ≤ v' := by
  intro cs
  induction cs with
  | nil => intro acc d v h; exact ⟨v, h, le_refl v⟩
  | cons c rest ih =>
    intro acc d v h
    obtain ⟨v1, h1, hv1⟩ := process_channel_initial_mono env channels acc c d v h
    obtain ⟨v2, h2, hv2⟩ := ih (process_channel_initial env channels acc c) d v1 h1
    exact ⟨v2, by simpa [List.foldl] using h2, le_trans hv1 hv2⟩

/-! ## Skip/filter equivalence for the single-channel tickle pass -/

theorem process_push_skip_foreign_or_stale (c : Channel) (env : Env) (wm : WM) (p : Push)
    (d : String) (w w' : Rat)
    (hd : c.device_iden = some d) (hde : d ≠ "")
    (hlk : wmLookup wm d = some w') (hww : w ≤ w')
    (hnot : newer_owned_push d w p = false) :
    (process_push [c] env wm p).1 = wm ∧
      isDelivered (process_push [c] env wm p).2 = false := by
  have hnot' : ¬((p.target_device_iden = some d ∨ p.source_device_iden = some d) ∧
      w < push_modified p) := by
    simpa [newer_owned_push] using hnot
  by_cases hty : p.ty = some ("link")
  · rcases hdev : pyOrOpt p.target_device_iden p.source_device_iden with _ | d0
    · simp [process_push, hty, hdev, isDelivered]
    · by_cases hd0 : d0 = ""
      · subst hd0
        simp [process_push, hty, hdev, isDelivered]
      · by_cases hdd : d0 = d
        · subst hdd
          have howned : p.target_device_iden = some d0 ∨ p.source_device_iden = some d0 :=
            pyOrOpt_eq_some _ _ _ hdev
          have hm : push_modified p ≤ w := by
            by_contra hgt
            exact hnot' ⟨howned, lt_of_not_le hgt⟩
          exact process_push_stale [c] env wm p d0 w' hdev hlk (le_trans hm hww)
        · have hne : c.device_iden ≠ some d0 := by
            rw [hd]
            simp only [ne_eq, Option.some.injEq]
            exact fun h => hdd h.symm
          have hcol : get_collection_for_device [c] (some d0) = none := by
            simp [get_collection_for_device, hd0, findCollection, hne]
          simp [process_push, hty, hdev, hd0, hcol, isDelivered]
  · simp [process_push_nonlink [c] env wm p hty, isDelivered]

theorem runPushes_eq_filter (c : Channel) (env : Env) (d : String) (w : Rat)
    (hd : c.device_iden = some d) (hde : d ≠ "") :
    ∀ (L : List Push) (wm : WM) (w' : Rat),
      wmLookup wm d = some w' → w ≤ w' →
      (runPushes [c] env wm L).1 =
        (runPushes [c] env wm (L.filter (newer_owned_push d w))).1 ∧
      delivered_calls (runPushes [c] env wm L).2 =
        delivered_calls (runPushes [c] env wm (L.filter (newer_owned_push d w))).2 := by
  intro L
  induction L with
  | nil => intro wm w' hlk hww; exact ⟨rfl, rfl⟩
  | cons p ps ih =>
    intro wm w' hlk hww
    by_cases hp : newer_owned_push d w p = true
    · have hfil : (p :: ps).filter (newer_owned_push d w) =
          p :: ps.filter (newer_owned_push d w) := by
        simp [List.filter, hp]
      obtain ⟨v1, h1, hv1⟩ := process_push_mono [c] env wm p d w' hlk
      obtain ⟨ih1, ih2⟩ := ih (process_push [c] env wm p).1 v1 h1 (le_trans hww hv1)
      rw [hfil, runPushes_cons, runPushes_cons]
      exact ⟨ih1, by rw [delivered_calls_cons, delivered_calls_cons, ih2]⟩
    · have hp' : newer_owned_push d w p = false := by simpa using hp
      have hfil : (p :: ps).filter (newer_owned_push d w) =
          ps.filter (newer_owned_push d w) := by
        simp [List.filter, hp']
      obtain ⟨hwm1, hdel⟩ :=
        process_push_skip_foreign_or_stale c env wm p d w w' hd hde hlk hww hp'
      obtain ⟨ih1, ih2⟩ := ih wm w' hlk hww
      rw [hfil, runPushes_cons, hwm1]
      refine ⟨ih1, ?_⟩
      rw [delivered_calls_cons_skip (process_push [c] env wm p).2 _ hdel]
      exact ih2

/-! ## Insertion sort on already-sorted input -/

theorem insertAsc_sorted_cons (p : Push) (ps : List Push)
    (h : List.Pairwise (fun a b => push_modified a ≤ push_modified b) (p :: ps)) :
    insertAsc p ps = p :: ps := by
  cases ps with
  | nil => rfl
  | cons q qs =>
    have hpq : push_modified p ≤ push_modified q :=
      (List.pairwise_cons.mp h).1 q (by simp)
    simp [insertAsc, hpq]

theorem sortByModified_eq_self (L : List Push)
    (h : List.Pairwise (fun a b => push_modified a ≤ push_modified b) L) :
    sortByModified L = L := by
  induction L with
  | nil => rfl
  | cons p ps ih =>
    have hps := (List.pairwise_cons.mp h).2
    rw [sortByModified, ih hps]
    exact insertAsc_sorted_cons p ps h

theorem pairwise_filter_modified (L : List Push) (f : Push → Bool)
    (h : List.Pairwise (fun a b => push_modified a ≤ push_modified b) L) :
    List.Pairwise (fun a b => push_modified a ≤ push_modified b) (L.filter f) :=
  List.Pairwise.sublist (List.filter_sublist L) h

/-! ## First-match channel lookup -/

theorem findCollection_append (pre : List Channel) (c : Channel) (post : List Channel)
    (d : String) (hc : c.device_iden = some d)
    (hpre : ∀ c' ∈ pre, c'.device_iden ≠ some d) :
    findCollection (pre ++ c :: post) d = c.collection_id := by
  induction pre with
  | nil => simp [findCollection, hc]
  | cons x xs ih =>
    have hx : x.device_iden ≠ some d := hpre x (by simp)
    have hrest : ∀ c' ∈ xs, c'.device_iden ≠ some d :=
      fun c' hmem => hpre c' (by simp [hmem])
    simp only [List.cons_append, findCollection]
    rw [if_neg (by simpa using hx)]
    exact ih hrest

/-! ## Claim C1 -/

/-- Claim C1 counterexample: a link push for a configured device that passes
filtering, routing and the idempotence check (stored watermark 10, push
modified 12), whose sink write fails — yet `process_push` advances the
device's watermark from 10 to 12 and persists it, contradicting the claim
that a failed Bookmark Sink write leaves the watermark unchanged. -/
theorem c1_counterexample :
    (process_push [chanD] envSinkFail [(("d"), 10)] pushB).2 =
      PushResult.processed (SinkCall.mk ("u2") ("u2") ("") 1 SinkResult.failed) ∧
    (process_push [chanD] envSinkFail [(("d"), 10)] pushB).1 ≠ [(("d"), 10)] ∧
    wmLookup (process_push [chanD] envSinkFail [(("d"), 10)] pushB).1 ("d") = some 12 := by
  refine ⟨by decide, by decide, by decide⟩

/-- Claim C1 (amended): for every link push that passes filtering, routing and
the idempotence check, if the Bookmark Sink write fails the watermark for the
push's device is nevertheless advanced to the push's `modified` and persisted
(the code updates `processed_pushes` unconditionally after
`save_to_linkwarden` returns), so the push is NOT eligible for reprocessing:
delivery to the sink is at-most-once, not at-least-once. -/
theorem c1_amended_sink_failure_still_advances
    (channels : List Channel) (env : Env) (wm : WM) (p : Push)
    (d : String) (cid : Int) (u : String) (w : Rat)
    (hty : p.ty = some ("link"))
    (hdev : pyOrOpt p.target_device_iden p.source_device_iden = some d)
    (hde : d ≠ "")
    (hcol : get_collection_for_device channels (some d) = some cid)
    (hcid : cid ≠ 0)
    (hwm : wmLookup wm d = some w)
    (hlt : w < push_modified p)
    (hurl : p.url = some u) (hu : u ≠ "")
    (hdry : env.dryRun = false) (hsink : env.sinkOk = false) :
    (process_push channels env wm p).1 = wmInsert wm d (push_modified p) ∧
    ∃ call, (process_push channels env wm p).2 = PushResult.processed call ∧
      call.result = SinkResult.failed := by
  have hstale : already_processed wm d (push_modified p) = false := by
    unfold already_processed
    rw [hwm]
    simpa using not_le.mpr hlt
  have hrun := process_push_delivers channels env wm p d cid u
    hty hdev hde hcol hcid hstale hurl hu
  rw [hrun]
  refine ⟨rfl, ⟨_, rfl, ?_⟩⟩
  simp [save_to_linkwarden, hdry, hsink]

/-- Witness for the amended C1 at a concrete input. -/
theorem c1_amended_sink_failure_still_advances_witness :
    (process_push [chanD] envSinkFail [(("d"), 10)] pushB).1 =
      wmInsert [(("d"), 10)] ("d") (push_modified pushB) ∧
    ∃ call, (process_push [chanD] envSinkFail [(("d"), 10)] pushB).2 =
      PushResult.processed call ∧ call.result = SinkResult.failed :=
  c1_amended_sink_failure_still_advances [chanD] envSinkFail [(("d"), 10)] pushB
    ("d") 1 ("u2") 10 rfl (by decide) (by decide) (by decide) (by decide)
    (by decide) (by decide) rfl (by decide) rfl rfl

/-! ## Claim C2 -/

/-- Claim C2: for every push event and every device d with a stored watermark
entry, if the push is owned by d (target preferred, source fallback) and its
`modified` is at most the stored watermark, `process_push` never reaches the
Bookmark Sink, and the watermark state is unchanged. -/
theorem c2_stale_push_never_delivered (channels : List Channel) (env : Env) (wm : WM)
    (p : Push) (d : String) (w : Rat)
    (hdev : pyOrOpt p.target_device_iden p.source_device_iden = some d)
    (hwm : wmLookup wm d = some w)
    (hm : push_modified p ≤ w) :
    isDelivered (process_push channels env wm p).2 = false ∧
      (process_push channels env wm p).1 = wm := by
  obtain ⟨h1, h2⟩ := process_push_stale channels env wm p d w hdev hwm hm
  exact ⟨h2, h1⟩

/-- Witness for C2 at a concrete input: stored watermark 12, push modified 11. -/
theorem c2_stale_push_never_delivered_witness :
    isDelivered (process_push [chanD] envDesc [(("d"), 12)] pushA).2 = false ∧
      (process_push [chanD] envDesc [(("d"), 12)] pushA).1 = [(("d"), 12)] :=
  c2_stale_push_never_delivered [chanD] envDesc [(("d"), 12)] pushA ("d") 12
    (by decide) (by decide) (by decide)

/-! ## Claim C3 -/

/-- Claim C3: across every watermark-mutating operation of the run — a single
`process_push`, the startup catch-up pass `process_initial_pushes`, or a
WebSocket frame delivery — an existing watermark entry is never replaced by a
strictly smaller timestamp: per-device watermarks are monotonically
non-decreasing. -/
theorem c3_watermark_monotone (op : BridgeOp) (wm : WM) (d : String) (v : Rat)
    (h : wmLookup wm d = some v) :
    ∃ v', wmLookup (applyOp wm op) d = some v' ∧ v ≤ v' := by
  cases op with
  | handlePush channels env p => exact process_push_mono channels env wm p d v h
  | initialPushes channels env =>
    simpa [applyOp, process_initial_pushes] using
      foldl_initial_mono env channels channels (wm, ([] : List PushResult)) d v h
  | wsMessage channels env msg =>
    by_cases hm : msg.ty = some ("tickle") ∧ msg.subtype = some ("push")
    · have := runPushes_mono channels env (env.fetch 0) wm d v h
      simpa [applyOp, on_websocket_message, hm] using this
    · exact ⟨v, by simp [applyOp, on_websocket_message, hm, h], le_refl v⟩

/-- Witness for C3 at a concrete input: a delivered push advances the entry
from 10 to 12, which is not a decrease. -/
theorem c3_watermark_monotone_witness :
    ∃ v', wmLookup (applyOp [(("d"), 10)]
        (BridgeOp.handlePush [chanD] envSinkFail pushB)) ("d") = some v' ∧
      (10 : Rat) ≤ v' :=
  c3_watermark_monotone (BridgeOp.handlePush [chanD] envSinkFail pushB)
    [(("d"), 10)] ("d") 10 (by decide)

/-! ## Claim C4 -/

/-- Claim C4 counterexample: with a configured initial delay of 400 and a
maximum of 300, the delay slept after the first failure following a
successful connection is the uncapped 400, not `min(400 * 2^0, 300) = 300`:
the cap is only applied by the doubling step after a sleep, so the claimed
formula fails for initial delays above the maximum. -/
theorem c4_counterexample :
    delay_slept_after_failures (AppSettings.mk false ("INFO") 300 400 30) 0 ≠
      min ((400 : Int) * 2 ^ (0 : Nat)) 300 := by decide

/-- Claim C4 (amended): provided the configured initial delay is at most the
configured maximum and the maximum is nonnegative, the delay slept after N+1
consecutive connection failures (no intervening success) equals
`min(initial * 2^N, max_delay)`; and one successful connection resets the
next delay to the configured initial value, for arbitrary settings. -/
theorem c4_amended_backoff (s : AppSettings) (N : Nat)
    (hmax : 0 ≤ s.reconnect_max_delay)
    (hinit : s.reconnect_initial_delay ≤ s.reconnect_max_delay) :
    delay_slept_after_failures s N =
      min (s.reconnect_initial_delay * 2 ^ N) s.reconnect_max_delay ∧
    on_websocket_open_delay s = s.reconnect_initial_delay := by
  refine ⟨?_, rfl⟩
  induction N with
  | zero =>
    rw [delay_slept_after_failures, on_websocket_open_delay, pow_zero, mul_one]
    exact (min_eq_left hinit).symm
  | succ n ih =>
    rw [delay_slept_after_failures, ih, next_reconnect_delay]
    rcases le_total (s.reconnect_initial_delay * 2 ^ n) s.reconnect_max_delay with hle | hge
    · rw [min_eq_left hle]
      rcases le_total (s.reconnect_initial_delay * 2 ^ n * 2) s.reconnect_max_delay with h2 | h2
      · rw [min_eq_left h2, min_eq_left (by rw [pow_succ, ← mul_assoc]; exact h2)]
        rw [pow_succ, ← mul_assoc]
      · rw [min_eq_right h2, min_eq_right (by rw [pow_succ, ← mul_assoc]; exact h2)]
    · rw [min_eq_right hge]
      have hnn : 0 ≤ s.reconnect_initial_delay * 2 ^ n := le_trans hmax hge
      have h2 : s.reconnect_max_delay ≤ s.reconnect_max_delay * 2 := by linarith
      rw [min_eq_right h2]
      have h3 : s.reconnect_max_delay ≤ s.reconnect_initial_delay * 2 ^ (n + 1) := by
        rw [pow_succ, ← mul_assoc]
        nlinarith
      exact (min_eq_right h3).symm

/-- Witness for the amended C4: default settings (initial 2, max 300) after
nine consecutive failures sleep `min(2 * 2^8, 300) = 300`. -/
theorem c4_amended_backoff_witness :
    delay_slept_after_failures (AppSettings.mk false ("INFO") 300 2 30) 8 =
      min ((2 : Int) * 2 ^ (8 : Nat)) 300 ∧
    on_websocket_open_delay (AppSettings.mk false ("INFO") 300 2 30) = 2 :=
  c4_amended_backoff (AppSettings.mk false ("INFO") 300 2 30) 8 (by decide) (by decide)

/-! ## Claim C6 -/

/-- Claim C6: a configured channel device with no watermark entry and zero
historical link pushes is baselined to the current wall-clock time with no
sink delivery; afterwards a push owned by the device dated one second before
the baseline is dropped, and a link push dated 100 seconds after it (with a
URL and a configured collection) is processed. -/
theorem c6_baseline_to_now (c : Channel) (env : Env) (wm : WM) (d : String)
    (e1 e2 : Push) (cid : Int) (u : String)
    (hd : c.device_iden = some d) (hde : d ≠ "")
    (hwm : wmLookup wm d = none)
    (hzero : baseline_link_pushes env d = [])
    (he1dev : pyOrOpt e1.target_device_iden e1.source_device_iden = some d)
    (he1mod : push_modified e1 = env.now - 1)
    (he2ty : e2.ty = some ("link"))
    (he2dev : pyOrOpt e2.target_device_iden e2.source_device_iden = some d)
    (he2mod : push_modified e2 = env.now + 100)
    (hcol : get_collection_for_device [c] (some d) = some cid) (hcid : cid ≠ 0)
    (hurl : e2.url = some u) (hu : u ≠ "") :
    process_initial_pushes [c] env wm = (wmInsert wm d env.now, []) ∧
    isDelivered (process_push [c] env (wmInsert wm d env.now) e1).2 = false ∧
    isDelivered (process_push [c] env (wmInsert wm d env.now) e2).2 = true := by
  have hlk : wmLookup (wmInsert wm d env.now) d = some env.now :=
    wmLookup_wmInsert_self wm d env.now
  refine ⟨?_, ?_, ?_⟩
  · have hbase : baseline_value env d = env.now := by
      unfold baseline_value
      rw [hzero]
    simp [process_initial_pushes, process_channel_initial, hd, hde, hwm, hbase]
  · have hm1 : push_modified e1 ≤ env.now := by rw [he1mod]; linarith
    exact (process_push_stale [c] env (wmInsert wm d env.now) e1 d env.now
      he1dev hlk hm1).2
  · have hstale : already_processed (wmInsert wm d env.now) d (push_modified e2) = false := by
      unfold already_processed
      rw [hlk, he2mod]
      simp only [decide_eq_false_iff_not, not_le]
      linarith
    have hrun := process_push_delivers [c] env (wmInsert wm d env.now) e2 d cid u
      he2ty he2dev hde hcol hcid hstale hurl hu
    rw [hrun]
    rfl

/-- Witness for C6 at a concrete input: wall clock 1000, pushes dated 999 and
1100. -/
theorem c6_baseline_to_now_witness :
    process_initial_pushes [chanD] envAt1000 [] =
      (wmInsert [] ("d") envAt1000.now, []) ∧
    isDelivered (process_push [chanD] envAt1000
      (wmInsert [] ("d") envAt1000.now) pushE1).2 = false ∧
    isDelivered (process_push [chanD] envAt1000
      (wmInsert [] ("d") envAt1000.now) pushE2).2 = true :=
  c6_baseline_to_now chanD envAt1000 [] ("d") pushE1 pushE2 1 ("v2")
    rfl (by decide) rfl (by decide) (by decide)
    (by norm_num [push_modified, pushE1, envAt1000]) rfl (by decide)
    (by norm_num [push_modified, pushE2, envAt1000]) (by decide) (by decide)
    rfl (by decide)

/-! ## Claim C7 -/

/-- Claim C7: for every URL matching the search.app short-link pattern, if the
HEAD probe answers 302 with a Location header of https://example.com/page,
redirect resolution returns that Location value. -/
theorem c7_redirect_resolution (env : Env) (url : String)
    (hmatch : startswith url ("https://search.app/") = true)
    (hresp : env.headReq url =
      some (HttpResponse.mk 302 (some ("https://example.com/page")))) :
    (resolve_url env url).1 = ("https://example.com/page") := by
  simp [resolve_url, hmatch, hresp, redirect_result]

/-- Witness for C7: resolution of https://search.app/abc under that
response yields https://example.com/page. -/
theorem c7_redirect_resolution_witness :
    (resolve_url envRedirect ("https://search.app/abc")).1 =
      ("https://example.com/page") :=
  c7_redirect_resolution envRedirect ("https://search.app/abc")
    (by decide) (by decide)

/-! ## Claim C8 -/

/-- Claim C8: for every input URL that does not match the search.app pattern,
the redirect-resolution stage is the identity and issues no probing request,
whatever the environment answers. -/
theorem c8_non_matching_identity (env : Env) (url : String)
    (h : startswith url ("https://search.app/") = false) :
    resolve_url env url = (url, []) := by
  simp [resolve_url, h]

/-- Witness for C8 at a concrete input. -/
theorem c8_non_matching_identity_witness :
    resolve_url envRedirect ("https://example.org/x") = (("https://example.org/x"), []) :=
  c8_non_matching_identity envRedirect ("https://example.org/x") (by decide)

/-! ## Claim C9 -/

/-- Claim C9 (implicit): a link push with a URL whose owning device has a
configured collection but no watermark entry at all skips the idempotence
check and is delivered to the Bookmark Sink regardless of its `modified`
timestamp (the theorem places no constraint on `p.modified`), and the
watermark entry is then created at that timestamp. -/
theorem c9_no_entry_always_delivered (channels : List Channel) (env : Env)
    (wm : WM) (p : Push) (d : String) (cid : Int) (u : String)
    (hty : p.ty = some ("link"))
    (hdev : pyOrOpt p.target_device_iden p.source_device_iden = some d)
    (hde : d ≠ "")
    (hcol : get_collection_for_device channels (some d) = some cid)
    (hcid : cid ≠ 0)
    (hwm : wmLookup wm d = none)
    (hurl : p.url = some u) (hu : u ≠ "") :
    isDelivered (process_push channels env wm p).2 = true ∧
      (process_push channels env wm p).1 = wmInsert wm d (push_modified p) := by
  have hstale : already_processed wm d (push_modified p) = false :=
    already_processed_of_none wm d (push_modified p) hwm
  have hrun := process_push_delivers channels env wm p d cid u
    hty hdev hde hcol hcid hstale hurl hu
  rw [hrun]
  exact ⟨rfl, rfl⟩

/-- Witness for C9: a push with `modified = 0` for a device with no watermark
entry is delivered. -/
theorem c9_no_entry_always_delivered_witness :
    isDelivered (process_push [chanD] envDesc [] pushOld).2 = true ∧
      (process_push [chanD] envDesc [] pushOld).1 =
        wmInsert [] ("d") (push_modified pushOld) :=
  c9_no_entry_always_delivered [chanD] envDesc [] pushOld ("d") 1 ("u0")
    rfl (by decide) (by decide) (by decide) (by decide) rfl rfl (by decide)

/-! ## Claim C10 -/

/-- Claim C10 (implicit): when several configured channels carry the same
device identifier, `get_collection_for_device` is deterministic first-match:
it returns the `collection_id` of the earliest matching channel, and channels
after the first match are never consulted. -/
theorem c10_first_match_routing (pre : List Channel) (c : Channel)
    (post : List Channel) (d : String) (hde : d ≠ "")
    (hc : c.device_iden = some d)
    (hpre : ∀ c' ∈ pre, c'.device_iden ≠ some d) :
    get_collection_for_device (pre ++ c :: post) (some d) = c.collection_id := by
  have h1 : get_collection_for_device (pre ++ c :: post) (some d) =
      findCollection (pre ++ c :: post) d := by
    simp [get_collection_for_device, hde]
  rw [h1]
  exact findCollection_append pre c post d hc hpre

/-- Witness for C10: two channels for device d with collections 1 and 2; the
earliest wins. -/
theorem c10_first_match_routing_witness :
    get_collection_for_device ([] ++ chanD :: [chanDdup]) (some ("d")) =
      chanD.collection_id :=
  c10_first_match_routing [] chanD [chanDdup] ("d") (by decide) rfl (by simp)

/-! ## Claim C5 -/

theorem on_websocket_message_tickle (channels : List Channel) (env : Env) (wm : WM)
    (msg : WsMessage)
    (hmsg : msg.ty = some ("tickle") ∧ msg.subtype = some ("push")) :
    on_websocket_message channels env wm msg = runPushes channels env wm (env.fetch 0) := by
  simp [on_websocket_message, hmsg]

theorem catchup_spec_single (c : Channel) (env : Env) (wm : WM) (d : String) (w : Rat)
    (hd : c.device_iden = some d) (hde : d ≠ "")
    (hwm : wmLookup wm d = some w) :
    catchup_incremental_spec [c] env wm =
      ((runPushes [c] env wm
          (sortByModified ((env.fetch w).filter (newer_owned_push d w)))).1,
       (runPushes [c] env wm
          (sortByModified ((env.fetch w).filter (newer_owned_push d w)))).2) := by
  simp [catchup_incremental_spec, hd, hde, hwm]

/-- Claim C5 counterexample: one configured channel for device d with stored
watermark 10, and a fetch that always returns the pushes dated 12 and 11 in
that (descending) order.  The tickle handler processes them in arrival order,
so the push dated 12 advances the watermark and the genuinely new push dated
11 is dropped as already processed; the spec's incremental catch-up branch,
which processes strictly newer events in ascending time order, delivers both.
The delivery decisions therefore differ. -/
theorem c5_counterexample :
    ¬(delivered_calls (on_websocket_message [chanD] envDesc [(("d"), 10)] tickleMsg).2 =
       delivered_calls (catchup_incremental_spec [chanD] envDesc [(("d"), 10)]).2) := by
  decide

/-- Claim C5 (amended): for a single configured channel whose device has a
stored watermark entry, if the fetch result is independent of the
`modified_after` parameter and the fetched pushes arrive in ascending
`modified` order, then handling a push tickle produces the same resulting
watermark state and the same sink deliveries as the spec's incremental
catch-up branch.  (The counterexample shows the equivalence fails when
arrival order is not ascending.) -/
theorem c5_amended_tickle_matches_spec (c : Channel) (env : Env) (wm : WM)
    (msg : WsMessage) (d : String) (w : Rat)
    (hmsg : msg.ty = some ("tickle") ∧ msg.subtype = some ("push"))
    (hd : c.device_iden = some d) (hde : d ≠ "")
    (hwm : wmLookup wm d = some w)
    (hfetch : ∀ t, env.fetch t = env.fetch 0)
    (hsorted : List.Pairwise (fun a b => push_modified a ≤ push_modified b) (env.fetch 0)) :
    (on_websocket_message [c] env wm msg).1 = (catchup_incremental_spec [c] env wm).1 ∧
    delivered_calls (on_websocket_message [c] env wm msg).2 =
      delivered_calls (catchup_incremental_spec [c] env wm).2 := by
  have htick := on_websocket_message_tickle [c] env wm msg hmsg
  have hspec := catchup_spec_single c env wm d w hd hde hwm
  have hevs : sortByModified ((env.fetch w).filter (newer_owned_push d w)) =
      (env.fetch 0).filter (newer_owned_push d w) := by
    rw [hfetch w]
    exact sortByModified_eq_self _ (pairwise_filter_modified _ _ hsorted)
  rw [htick, hspec, hevs]
  exact runPushes_eq_filter c env d w hd hde (env.fetch 0) wm w hwm (le_refl w)

/-- Witness for the amended C5: the same two pushes arriving oldest-first
make the tickle handler and the spec's incremental branch agree. -/
theorem c5_amended_tickle_matches_spec_witness :
    (on_websocket_message [chanD] envAsc [(("d"), 10)] tickleMsg).1 =
      (catchup_incremental_spec [chanD] envAsc [(("d"), 10)]).1 ∧
    delivered_calls (on_websocket_message [chanD] envAsc [(("d"), 10)] tickleMsg).2 =
      delivered_calls (catchup_incremental_spec [chanD] envAsc [(("d"), 10)]).2 :=
  c5_amended_tickle_matches_spec chanD envAsc [(("d"), 10)] tickleMsg ("d") 10
    ⟨rfl, rfl⟩ rfl (by decide) (by decide) (fun t => rfl) (by decide)
